import Mathlib

/-!
Shallow embedding of the live-update orchestration engine of
`src/lib/utils/device/live.ts` (class `LivepushManager`), together with
theorems settling the specification's claims about it.

Modelling conventions:
* Stateful methods become pure functions that return the resulting state
  together with a record of the externally observable effects (diff-engine
  queries, `performActions` calls, log messages, the error thrown, if any).
* The external collaborators (`api.getStatus`, livepush's `actionsNeeded`
  and `performActions`) are passed in as function parameters.
* Machine integers do not occur; all counters are `Nat`.
* JavaScript objects keyed by service name are modelled as association
  lists in insertion order (JS object iteration order).
-/

namespace LivepushManager

/-- Container descriptor as read by `live.ts` from the device status
(fields `serviceName` and `containerId`). -/
structure ContainerDesc where
  serviceName : String
  containerId : String
deriving Repr, DecidableEq

/-- Device status as read by `live.ts`: the application state tag that
`awaitDeviceStateSettle` compares against the literal `"applied"`, and the
list of running containers. -/
structure Status where
  appState : String
  containers : List ContainerDesc
deriving Repr, DecidableEq

/-- The `FileUpdates` value handed to the livepush diff engine; the source
constructs it with fields `updated`, `added`, `deleted`
(lines 152-177 of `live.ts`). -/
structure FileUpdates where
  updated : List String
  added : List String
  deleted : List String
deriving Repr, DecidableEq

/-- Build-task metadata: the two fields `live.ts` reads from a
resin-multibuild task (`serviceName`, optional `dockerfile`). -/
structure BuildTask where
  serviceName : String
  dockerfile : Option String
deriving Repr, DecidableEq

/-- Build section of a composition service; `live.ts` reads only its
`context` path. -/
structure ServiceBuild where
  context : String
deriving Repr, DecidableEq

/-- A composition service; `build` is absent for image-only services. -/
structure Service where
  build : Option ServiceBuild
deriving Repr, DecidableEq

/-- The parsed composition. `services` is the JS object
`composition.services`, modelled as an insertion-ordered association list
(the order `for ... in` iterates it). -/
structure Composition where
  services : List (String × Service)
deriving Repr, DecidableEq

/-- Errors thrown inside `live.ts` (the source throws `Error` with a
message; we split them by throw site) plus failures of the external calls
it awaits (`getStatus` rejections, `performActions` rejections). The
`noSession` case models the crash of
`this.containers[fsEvent.serviceName].livepush` when no entry exists. -/
inductive LiveErr where
  | noBuildTask (serviceName : String)
  | noDockerfile (serviceName : String)
  | noContainer (serviceName : String)
  | unknownEvent (eventType : String)
  | noSession (serviceName : String)
  | ioError (msg : String)
  | execFailed (msg : String)
deriving Repr, DecidableEq

/-- The livepush diff-engine handle. The source constructs
`new Livepush(dockerfile, context, container.containerId, docker)`; we
record the binding triple (the docker client carries nothing the claims
need). -/
structure Livepush where
  dockerfile : String
  context : String
  containerId : String
deriving Repr, DecidableEq

/-- One `monitor.on(kind, ...)` registration: the event kind and the
service name the registered closure captures and forwards into
`handleFSEvent`. -/
structure WatchRoute where
  eventType : String
  serviceName : String
deriving Repr, DecidableEq

/-- The three `monitor.on` registrations `init` makes for a service
(lines 109-117 of `live.ts`): add, change and unlink, each forwarding the
path into `handleFSEvent` with the service name attached. -/
def watchRoutes (serviceName : String) : List WatchRoute :=
  [⟨"add", serviceName⟩, ⟨"change", serviceName⟩, ⟨"unlink", serviceName⟩]

/-- The `ContextEvent` delivered to `handleFSEvent`. The TS declaration
restricts `type` to the three known kinds, but the handler still carries a
default branch, so we model the kind as an arbitrary string. -/
structure ContextEvent where
  type : String
  filename : String
  serviceName : String
deriving Repr, DecidableEq

/-- Model of `path.join` as applied to `(buildContext,
service.build.context)`: the joining itself; dot-segment normalisation is
not modelled (no claim depends on it). -/
def pathJoin (a b : String) : String := a ++ "/" ++ b

/-- An entry of `this.containers`: the resolved build context, the
livepush handle, and the watcher, represented by its registered routes. -/
structure MonitoredContainer where
  context : String
  livepush : Livepush
  monitor : List WatchRoute
deriving Repr, DecidableEq

/-- The messages `live.ts` emits through the logger on the event path,
one constructor per logger call site (each captures the service name the
source interpolates into the message):
* `debugEvent` — `logDebug` "Got an filesystem event for service ...";
* `detectedChanges` — `logLivepush` "Detected changes for container ...,
  updating...";
* `restartingContainer` — `logLivepush` "Restarting container for
  service ...". -/
inductive LogMsg where
  | debugEvent (serviceName : String)
  | detectedChanges (serviceName : String)
  | restartingContainer (serviceName : String)
deriving Repr, DecidableEq

/-- An opaque `DockerfileActionGroup` returned by the diff engine. -/
structure ActionGroup where
  id : Nat
deriving Repr, DecidableEq

/-- One iteration body of the `for (const serviceName in
this.composition.services)` loop of `init` (lines 51-124 of `live.ts`),
for a single service, given the settled device state. Returns
`Except.ok none` when the service is skipped, `Except.ok (some mc)` when a
monitored container is created, and `Except.error e` when the iteration
throws. The checks appear in source order: missing build task (thrown
before anything else), the image-only skip, missing dockerfile, missing
on-device container. -/
def initService (buildContext : String) (buildTasks : List BuildTask) (st : Status)
    (serviceName : String) (service : Service) :
    Except LiveErr (Option MonitoredContainer) :=
  match List.find? (fun task => task.serviceName == serviceName) buildTasks with
  | none => .error (.noBuildTask serviceName)
  | some buildTask =>
    match service.build with
    | none => .ok none
    | some build =>
      let context := pathJoin buildContext build.context
      match buildTask.dockerfile with
      | none => .error (.noDockerfile serviceName)
      | some dockerfile =>
        match List.find? (fun c => c.serviceName == serviceName) st.containers with
        | none => .error (.noContainer serviceName)
        | some container =>
          .ok (some ⟨context,
                     ⟨dockerfile, context, container.containerId⟩,
                     watchRoutes serviceName⟩)

/-- The `init` loop over the composition's services. `acc` is the current
`this.containers` map. A thrown error aborts the loop at once, and —
exactly as in the source, where the exception propagates out of `init`
while `this.containers` keeps the entries already assigned — the entries
accumulated so far are returned alongside the error. -/
def initLoop (buildContext : String) (buildTasks : List BuildTask) (st : Status) :
    List (String × Service) → List (String × MonitoredContainer) →
    List (String × MonitoredContainer) × Option LiveErr
  | [], acc => (acc, none)
  | (serviceName, service) :: rest, acc =>
    match initService buildContext buildTasks st serviceName service with
    | .error e => (acc, some e)
    | .ok none => initLoop buildContext buildTasks st rest acc
    | .ok (some mc) => initLoop buildContext buildTasks st rest (acc ++ [(serviceName, mc)])

/-- Result of initialization: on success the final `this.containers` map;
on failure the error together with the entries that remain in
`this.containers` at the moment the exception propagates; `diverged` marks
fuel exhaustion of the (in the source, unbounded) settle-wait loop. -/
inductive InitResult where
  | ok (containers : List (String × MonitoredContainer))
  | failed (containers : List (String × MonitoredContainer)) (e : LiveErr)
  | diverged
deriving Repr, DecidableEq

/-- The containers a finished (or aborted) initialization leaves behind. -/
def InitResult.containers : InitResult → List (String × MonitoredContainer)
  | .ok cs => cs
  | .failed cs _ => cs
  | .diverged => []

/-- The session-construction stage of `init` (the loop of lines 51-124),
run against an already-settled device state. -/
def buildSessions (buildContext : String) (buildTasks : List BuildTask) (st : Status)
    (composition : Composition) : InitResult :=
  match initLoop buildContext buildTasks st composition.services [] with
  | (cs, none) => .ok cs
  | (cs, some e) => .failed cs e

/-- Result of the settle-wait loop. `settled calls st` and
`failed calls e` record how many `getStatus` calls were performed;
`diverged` marks fuel exhaustion (the source loop is unbounded). -/
inductive SettleResult where
  | settled (calls : Nat) (st : Status)
  | failed (calls : Nat) (e : LiveErr)
  | diverged
deriving Repr, DecidableEq

/-- `awaitDeviceStateSettle` (lines 129-142 of `live.ts`), with the
`getStatus` provider indexed by call number: fetch the status (a rejection
propagates immediately — the source has no catch), return it if its
`appState` equals "applied", otherwise delay and recurse. The real loop is
unbounded; `fuel` bounds the recursion in the model, `i` is the number of
calls already made. -/
def awaitSettleAux (provider : Nat → Except LiveErr Status) :
    Nat → Nat → SettleResult
  | 0, _ => .diverged
  | fuel + 1, i =>
    match provider i with
    | .error e => .failed (i + 1) e
    | .ok st =>
      if st.appState = "applied" then .settled (i + 1) st
      else awaitSettleAux provider fuel (i + 1)

/-- `awaitDeviceStateSettle`, started with zero calls made. The status it
returns inside `settled` is the value the source leaves cached in
`this.lastDeviceStatus`. -/
def awaitDeviceStateSettle (provider : Nat → Except LiveErr Status) (fuel : Nat) :
    SettleResult :=
  awaitSettleAux provider fuel 0

/-- `init` (lines 43-127 of `live.ts`): first await settlement — a failure
there propagates before any session is constructed — then run the session
loop against the last fetched (settled) state. -/
def init (buildContext : String) (composition : Composition)
    (buildTasks : List BuildTask) (provider : Nat → Except LiveErr Status)
    (fuel : Nat) : InitResult :=
  match awaitDeviceStateSettle provider fuel with
  | .diverged => .diverged
  | .failed _ e => .failed [] e
  | .settled _ st => buildSessions buildContext buildTasks st composition

/-- The event classifier: the `switch (fsEvent.type)` of `handleFSEvent`
(lines 152-177 of `live.ts`). Exactly one of the three lists of the
produced `FileUpdates` is non-empty; an unknown kind throws. -/
def classify (eventType : String) (filename : String) :
    Except LiveErr FileUpdates :=
  if eventType = "add" then .ok ⟨[], [filename], []⟩
  else if eventType = "change" then .ok ⟨[filename], [], []⟩
  else if eventType = "unlink" then .ok ⟨[], [], [filename]⟩
  else .error (.unknownEvent eventType)

/-- Observable effects of one `executeActions` call. -/
structure ExecEffects where
  performCalls : List (FileUpdates × List ActionGroup)
  logs : List LogMsg
  error : Option LiveErr
deriving Repr, DecidableEq

/-- `executeActions` (lines 194-202 of `live.ts`): await
`performActions(updates, actions)`; only when that succeeds, log the
"Restarting container for service ..." message; a rejection propagates
before the log call. -/
def executeActions
    (performActions : Livepush → FileUpdates → List ActionGroup → Except LiveErr Unit)
    (actions : List ActionGroup) (updates : FileUpdates) (livepush : Livepush)
    (serviceName : String) : ExecEffects :=
  match performActions livepush updates actions with
  | .ok _ => ⟨[(updates, actions)], [.restartingContainer serviceName], none⟩
  | .error e => ⟨[(updates, actions)], [], some e⟩

/-- Observable outcome of one `handleFSEvent` invocation:
the `this.containers` map after the call (the handler never assigns to
it, so it always equals the input), the `actionsNeeded` queries issued,
the `performActions` calls issued, the log messages in emission order, and
the error the invocation threw, if any. -/
structure FSEventResult where
  containers : List (String × MonitoredContainer)
  diffQueries : List FileUpdates
  performCalls : List (FileUpdates × List ActionGroup)
  logs : List LogMsg
  error : Option LiveErr
deriving Repr, DecidableEq

/-- `handleFSEvent` (lines 144-192 of `live.ts`): log the debug message,
classify the event (an unknown kind throws here, before anything else),
look up the service's livepush handle, query `actionsNeeded`; when the
action list is empty return with no further effect, otherwise run
`executeActions`. The diff engine's two entry points are passed in as
functions of the handle. -/
def handleFSEvent (containers : List (String × MonitoredContainer))
    (actionsNeeded : Livepush → FileUpdates → List ActionGroup)
    (performActions : Livepush → FileUpdates → List ActionGroup → Except LiveErr Unit)
    (fsEvent : ContextEvent) : FSEventResult :=
  match classify fsEvent.type fsEvent.filename with
  | .error e =>
    ⟨containers, [], [], [.debugEvent fsEvent.serviceName], some e⟩
  | .ok updates =>
    match containers.lookup fsEvent.serviceName with
    | none =>
      ⟨containers, [], [], [.debugEvent fsEvent.serviceName],
        some (.noSession fsEvent.serviceName)⟩
    | some mc =>
      let actions := actionsNeeded mc.livepush updates
      if actions.length = 0 then
        ⟨containers, [updates], [], [.debugEvent fsEvent.serviceName], none⟩
      else
        let eff := executeActions performActions actions updates mc.livepush
          fsEvent.serviceName
        ⟨containers, [updates], eff.performCalls,
          .debugEvent fsEvent.serviceName ::
            .detectedChanges fsEvent.serviceName :: eff.logs,
          eff.error⟩

/-- The sessions the `init` loop creates for a list of services all of
whose iterations succeed (skips excluded), in order. Used to describe the
partial `this.containers` contents `initLoop` leaves behind on an abort. -/
def okSessions (buildContext : String) (buildTasks : List BuildTask) (st : Status) :
    List (String × Service) → List (String × MonitoredContainer)
  | [] => []
  | (serviceName, service) :: rest =>
    match initService buildContext buildTasks st serviceName service with
    | .ok (some mc) => (serviceName, mc) :: okSessions buildContext buildTasks st rest
    | _ => okSessions buildContext buildTasks st rest

/-!
Event-loop model for the execution-serialization claim.

`handleFSEvent` is an `async` method invoked directly by the chokidar
callbacks. Its body up to and including the call of
`livepush.performActions` (inside `executeActions`) runs as one
synchronous block: classification, the `actionsNeeded` query, and the call
that *starts* the execution all happen before the first suspension point,
and no lock is acquired anywhere on that path. The completion of
`performActions` is a separate, later event-loop step. We model a handler
invocation as an atomic step that appends its classification/diff and its
execution start to the trace and leaves the execution pending, and the
completion of any pending execution as an independent step.
-/

/-- Trace entries of the event-loop model: for handler invocation
`taskId`, its classification-and-diff, the start of its
`performActions` execution, and the completion of that execution. -/
inductive EvStep where
  | classifyDiff (taskId : Nat)
  | execStart (taskId : Nat)
  | execEnd (taskId : Nat)
deriving Repr, DecidableEq, BEq

/-- Event-loop state: handler invocations still queued (in arrival
order), executions in flight, and the trace so far. -/
structure LoopState where
  queued : List Nat
  running : List Nat
  trace : List EvStep
deriving Repr, DecidableEq

/-- One step of the event loop running `handleFSEvent` invocations for a
single session. `runHandler` dequeues the next queued invocation and runs
its synchronous block — classification, diff query and the call starting
`performActions` — atomically; since the source acquires no lock before
that call, the step has no precondition on `running`. `completeExec`
finishes any execution in flight. -/
inductive LoopStep : LoopState → LoopState → Prop where
  | runHandler (id : Nat) (rest running : List Nat) (trace : List EvStep) :
      LoopStep ⟨id :: rest, running, trace⟩
        ⟨rest, running ++ [id], trace ++ [.classifyDiff id, .execStart id]⟩
  | completeExec (id : Nat) (queued running : List Nat) (trace : List EvStep) :
      id ∈ running →
      LoopStep ⟨queued, running, trace⟩
        ⟨queued, running.erase id, trace ++ [.execEnd id]⟩

/-- Reachability in the event-loop model. -/
def LoopReach : LoopState → LoopState → Prop :=
  Relation.ReflTransGen LoopStep

/-- The trace the event loop produces for two rapid events on one session
when the first execution is still running as the second handler runs: the
second execution starts (position 3) before the first completes
(position 4). -/
def overlapTrace : List EvStep :=
  [.classifyDiff 1, .execStart 1, .classifyDiff 2, .execStart 2,
   .execEnd 1, .execEnd 2]

/-- C3: for every raw filesystem event of kind add, change or unlink with
path `p`, classification yields a batch in which exactly one of
`added = [p]`, `updated = [p]`, `deleted = [p]` respectively is non-empty
and the other two lists are empty; every other kind fails with the
unknown-event error. -/
theorem C3_classification (p t : String) :
    classify "add" p = .ok ⟨[], [p], []⟩ ∧
    classify "change" p = .ok ⟨[p], [], []⟩ ∧
    classify "unlink" p = .ok ⟨[], [], [p]⟩ ∧
    (t ≠ "add" → t ≠ "change" → t ≠ "unlink" →
      classify t p = .error (.unknownEvent t)) := by
  refine ⟨rfl, rfl, rfl, ?_⟩
  intro h1 h2 h3
  simp [classify, h1, h2, h3]

/-- Witness for C3 at path "app.js" and unknown kind "addDir". -/
theorem C3_classification_witness :
    classify "add" "app.js" = .ok ⟨[], ["app.js"], []⟩ ∧
    classify "addDir" "app.js" = .error (.unknownEvent "addDir") :=
  ⟨(C3_classification "app.js" "addDir").1,
   (C3_classification "app.js" "addDir").2.2.2 (by decide) (by decide) (by decide)⟩

/-- C10: for every filesystem event whose kind lies outside
{add, change, unlink}, `handleFSEvent` fails before the diff engine is
consulted: no `actionsNeeded` query is issued, no `performActions` call is
made, and the session map is returned unchanged. -/
theorem C10_unknown_event_no_effect
    (containers : List (String × MonitoredContainer))
    (actionsNeeded : Livepush → FileUpdates → List ActionGroup)
    (performActions : Livepush → FileUpdates → List ActionGroup → Except LiveErr Unit)
    (ev : ContextEvent)
    (h1 : ev.type ≠ "add") (h2 : ev.type ≠ "change") (h3 : ev.type ≠ "unlink") :
    handleFSEvent containers actionsNeeded performActions ev =
      ⟨containers, [], [], [.debugEvent ev.serviceName],
        some (.unknownEvent ev.type)⟩ := by
  simp [handleFSEvent, classify, h1, h2, h3]

/-- Witness for C10 at the unknown kind "addDir". -/
theorem C10_unknown_event_no_effect_witness :
    handleFSEvent [] (fun _ _ => []) (fun _ _ _ => .ok ())
        ⟨"addDir", "f.txt", "web"⟩ =
      ⟨[], [], [], [.debugEvent "web"], some (.unknownEvent "addDir")⟩ :=
  C10_unknown_event_no_effect [] (fun _ _ => []) (fun _ _ _ => .ok ())
    ⟨"addDir", "f.txt", "web"⟩ (by decide) (by decide) (by decide)

/-- C5: for every classified batch on which the diff engine's
`actionsNeeded` returns the empty list, the handler returns with no
further effect: `performActions` is not called, no update notification is
logged (only the debug line), no error is raised, and the session map is
unchanged. -/
theorem C5_empty_actions_no_execution
    (containers : List (String × MonitoredContainer))
    (actionsNeeded : Livepush → FileUpdates → List ActionGroup)
    (performActions : Livepush → FileUpdates → List ActionGroup → Except LiveErr Unit)
    (ev : ContextEvent) (mc : MonitoredContainer) (updates : FileUpdates)
    (hclass : classify ev.type ev.filename = .ok updates)
    (hlook : containers.lookup ev.serviceName = some mc)
    (hempty : actionsNeeded mc.livepush updates = []) :
    handleFSEvent containers actionsNeeded performActions ev =
      ⟨containers, [updates], [], [.debugEvent ev.serviceName], none⟩ := by
  simp [handleFSEvent, hclass, hlook, hempty]

/-- Witness for C5: a change event whose diff produces no actions. -/
theorem C5_empty_actions_no_execution_witness :
    handleFSEvent [("web", ⟨"/r/web", ⟨"Dockerfile", "/r/web", "c1"⟩, watchRoutes "web"⟩)]
        (fun _ _ => []) (fun _ _ _ => .ok ()) ⟨"change", "app.js", "web"⟩ =
      ⟨[("web", ⟨"/r/web", ⟨"Dockerfile", "/r/web", "c1"⟩, watchRoutes "web"⟩)],
        [⟨["app.js"], [], []⟩], [], [.debugEvent "web"], none⟩ :=
  C5_empty_actions_no_execution
    [("web", ⟨"/r/web", ⟨"Dockerfile", "/r/web", "c1"⟩, watchRoutes "web"⟩)]
    (fun _ _ => []) (fun _ _ _ => .ok ()) ⟨"change", "app.js", "web"⟩
    ⟨"/r/web", ⟨"Dockerfile", "/r/web", "c1"⟩, watchRoutes "web"⟩
    ⟨["app.js"], [], []⟩ rfl rfl rfl

/-- C8: for every non-empty action list accepted for execution, the
handler invokes the external `performActions` exactly once, with that
batch and that action list; the "restarting container for service X"
notification is logged when and only when `performActions` succeeds, and
on failure the error is surfaced and the notification is absent from the
emitted logs. -/
theorem C8_execute_notification
    (containers : List (String × MonitoredContainer))
    (actionsNeeded : Livepush → FileUpdates → List ActionGroup)
    (performActions : Livepush → FileUpdates → List ActionGroup → Except LiveErr Unit)
    (ev : ContextEvent) (mc : MonitoredContainer) (updates : FileUpdates)
    (acts : List ActionGroup)
    (hclass : classify ev.type ev.filename = .ok updates)
    (hlook : containers.lookup ev.serviceName = some mc)
    (hacts : actionsNeeded mc.livepush updates = acts)
    (hne : acts ≠ []) :
    (handleFSEvent containers actionsNeeded performActions ev).performCalls =
      [(updates, acts)] ∧
    (performActions mc.livepush updates acts = .ok () →
      handleFSEvent containers actionsNeeded performActions ev =
        ⟨containers, [updates], [(updates, acts)],
          [.debugEvent ev.serviceName, .detectedChanges ev.serviceName,
            .restartingContainer ev.serviceName], none⟩) ∧
    (∀ e, performActions mc.livepush updates acts = .error e →
      handleFSEvent containers actionsNeeded performActions ev =
        ⟨containers, [updates], [(updates, acts)],
          [.debugEvent ev.serviceName, .detectedChanges ev.serviceName],
          some e⟩ ∧
      LogMsg.restartingContainer ev.serviceName ∉
        (handleFSEvent containers actionsNeeded performActions ev).logs) := by
  have hlen : ¬ acts.length = 0 := by
    simpa [List.length_eq_zero] using hne
  refine ⟨?_, ?_, ?_⟩
  · simp [handleFSEvent, hclass, hlook, hacts, hlen, executeActions]
    cases h : performActions mc.livepush updates acts <;> simp
  · intro hok
    simp [handleFSEvent, hclass, hlook, hacts, hlen, executeActions, hok]
  · intro e herr
    constructor
    · simp [handleFSEvent, hclass, hlook, hacts, hlen, executeActions, herr]
    · simp [handleFSEvent, hclass, hlook, hacts, hlen, executeActions, herr]

/-- Witness for C8: a change event with one action group, exercised once
with a succeeding and once with a failing `performActions`. -/
theorem C8_execute_notification_witness :
    handleFSEvent [("web", ⟨"/r/web", ⟨"Dockerfile", "/r/web", "c1"⟩, watchRoutes "web"⟩)]
        (fun _ _ => [⟨0⟩]) (fun _ _ _ => .ok ()) ⟨"change", "app.js", "web"⟩ =
      ⟨[("web", ⟨"/r/web", ⟨"Dockerfile", "/r/web", "c1"⟩, watchRoutes "web"⟩)],
        [⟨["app.js"], [], []⟩], [(⟨["app.js"], [], []⟩, [⟨0⟩])],
        [.debugEvent "web", .detectedChanges "web", .restartingContainer "web"],
        none⟩ ∧
    handleFSEvent [("web", ⟨"/r/web", ⟨"Dockerfile", "/r/web", "c1"⟩, watchRoutes "web"⟩)]
        (fun _ _ => [⟨0⟩]) (fun _ _ _ => .error (.execFailed "boom"))
        ⟨"change", "app.js", "web"⟩ =
      ⟨[("web", ⟨"/r/web", ⟨"Dockerfile", "/r/web", "c1"⟩, watchRoutes "web"⟩)],
        [⟨["app.js"], [], []⟩], [(⟨["app.js"], [], []⟩, [⟨0⟩])],
        [.debugEvent "web", .detectedChanges "web"],
        some (.execFailed "boom")⟩ :=
  ⟨(C8_execute_notification
      [("web", ⟨"/r/web", ⟨"Dockerfile", "/r/web", "c1"⟩, watchRoutes "web"⟩)]
      (fun _ _ => [⟨0⟩]) (fun _ _ _ => .ok ()) ⟨"change", "app.js", "web"⟩
      ⟨"/r/web", ⟨"Dockerfile", "/r/web", "c1"⟩, watchRoutes "web"⟩
      ⟨["app.js"], [], []⟩ [⟨0⟩] rfl rfl rfl (by decide)).2.1 rfl,
   ((C8_execute_notification
      [("web", ⟨"/r/web", ⟨"Dockerfile", "/r/web", "c1"⟩, watchRoutes "web"⟩)]
      (fun _ _ => [⟨0⟩]) (fun _ _ _ => .error (.execFailed "boom"))
      ⟨"change", "app.js", "web"⟩
      ⟨"/r/web", ⟨"Dockerfile", "/r/web", "c1"⟩, watchRoutes "web"⟩
      ⟨["app.js"], [], []⟩ [⟨0⟩] rfl rfl rfl (by decide)).2.2
      (.execFailed "boom") rfl).1⟩

/-- C6 counterexample: an image-only service ("svc", no build section)
whose name has no matching build task is not silently skipped — the
build-task lookup throws before the image-only check, so
`initService` fails instead of returning the skip result. -/
theorem C6_counterexample :
    initService "/root" [] ⟨"applied", []⟩ "svc" ⟨none⟩ =
      .error (.noBuildTask "svc") ∧
    initService "/root" [] ⟨"applied", []⟩ "svc" ⟨none⟩ ≠ .ok none :=
  ⟨rfl, fun h => by simp [initService] at h⟩

/-- C6 amended: a service that does not declare a build is skipped
without an error regardless of the matched task's dockerfile and of the
container state, provided some build task matches the service name (the
build-task lookup precedes the image-only skip in the source). -/
theorem C6_image_only_skip_amended (bc : String) (bt : List BuildTask)
    (st : Status) (name : String) (svc : Service)
    (hb : svc.build = none)
    (htask : ∃ t ∈ bt, t.serviceName = name) :
    initService bc bt st name svc = .ok none := by
  obtain ⟨t, ht, hname⟩ := htask
  have hsome : (List.find? (fun task => task.serviceName == name) bt).isSome := by
    rw [List.find?_isSome]
    exact ⟨t, ht, by simp [hname]⟩
  obtain ⟨task, hfind⟩ := Option.isSome_iff_exists.mp hsome
  simp [initService, hfind, hb]

/-- Witness for the amended C6: an image-only service with a matching
build task (dockerfile absent, no containers) is skipped. -/
theorem C6_image_only_skip_amended_witness :
    initService "/r" [⟨"svc", none⟩] ⟨"applied", []⟩ "svc" ⟨none⟩ = .ok none :=
  C6_image_only_skip_amended "/r" [⟨"svc", none⟩] ⟨"applied", []⟩ "svc" ⟨none⟩
    rfl ⟨⟨"svc", none⟩, by simp, rfl⟩

/-- Helper: if the provider answers `N` not-yet-applied states from call
index `i` on and an applied state at call `i + N`, the settle loop stops
exactly there. -/
theorem awaitSettleAux_applied (provider : Nat → Except LiveErr Status) :
    ∀ (N i fuel : Nat), N < fuel →
    (∀ j, j < N → ∃ s0, provider (i + j) = Except.ok s0 ∧ s0.appState ≠ "applied") →
    ∀ s, provider (i + N) = Except.ok s → s.appState = "applied" →
    awaitSettleAux provider fuel i = SettleResult.settled (i + N + 1) s := by
  intro N
  induction N with
  | zero =>
    intro i fuel hf hpre s hs happ
    obtain ⟨f, rfl⟩ : ∃ f, fuel = f + 1 := ⟨fuel - 1, by omega⟩
    have hi : provider i = Except.ok s := by simpa using hs
    simp [awaitSettleAux, hi, happ]
  | succ n ih =>
    intro i fuel hf hpre s hs happ
    obtain ⟨f, rfl⟩ : ∃ f, fuel = f + 1 := ⟨fuel - 1, by omega⟩
    obtain ⟨s0, hs0, hne⟩ := hpre 0 (Nat.succ_pos n)
    have hi : provider i = Except.ok s0 := by simpa using hs0
    have hrec := ih (i + 1) f (by omega)
      (fun j hj => by
        obtain ⟨s1, h1, h2⟩ := hpre (j + 1) (by omega)
        refine ⟨s1, ?_, h2⟩
        have e : i + 1 + j = i + (j + 1) := by omega
        rw [e]; exact h1)
      s (by
        have e : i + 1 + n = i + (n + 1) := by omega
        rw [e]; exact hs) happ
    have e2 : i + 1 + n + 1 = i + (n + 1) + 1 := by omega
    rw [e2] at hrec
    simp [awaitSettleAux, hi, hne]
    exact hrec

/-- Helper: if the provider answers `k` not-yet-applied states from call
index `i` on and fails at call `i + k`, the settle loop fails exactly
there, with no retry of the failed fetch. -/
theorem awaitSettleAux_error (provider : Nat → Except LiveErr Status) :
    ∀ (k i fuel : Nat), k < fuel →
    (∀ j, j < k → ∃ s0, provider (i + j) = Except.ok s0 ∧ s0.appState ≠ "applied") →
    ∀ e, provider (i + k) = Except.error e →
    awaitSettleAux provider fuel i = SettleResult.failed (i + k + 1) e := by
  intro k
  induction k with
  | zero =>
    intro i fuel hf hpre e he
    obtain ⟨f, rfl⟩ : ∃ f, fuel = f + 1 := ⟨fuel - 1, by omega⟩
    have hi : provider i = Except.error e := by simpa using he
    simp [awaitSettleAux, hi]
  | succ n ih =>
    intro i fuel hf hpre e he
    obtain ⟨f, rfl⟩ : ∃ f, fuel = f + 1 := ⟨fuel - 1, by omega⟩
    obtain ⟨s0, hs0, hne⟩ := hpre 0 (Nat.succ_pos n)
    have hi : provider i = Except.ok s0 := by simpa using hs0
    have hrec := ih (i + 1) f (by omega)
      (fun j hj => by
        obtain ⟨s1, h1, h2⟩ := hpre (j + 1) (by omega)
        refine ⟨s1, ?_, h2⟩
        have eq1 : i + 1 + j = i + (j + 1) := by omega
        rw [eq1]; exact h1)
      e (by
        have eq2 : i + 1 + n = i + (n + 1) := by omega
        rw [eq2]; exact he)
    have eq3 : i + 1 + n + 1 = i + (n + 1) + 1 := by omega
    rw [eq3] at hrec
    simp [awaitSettleAux, hi, hne]
    exact hrec

/-- C4: given a provider reporting a non-"applied" state on the first `N`
calls and an "applied" state on call `N + 1`, the settle wait terminates
after exactly `N + 1` provider calls with that `N + 1`-th state, and
`init` constructs its sessions from exactly that retained state. -/
theorem C4_settle_termination (provider : Nat → Except LiveErr Status)
    (N fuel : Nat) (s : Status) (bc : String) (comp : Composition)
    (bt : List BuildTask)
    (hfuel : N < fuel)
    (hpre : ∀ j, j < N → ∃ s0, provider j = Except.ok s0 ∧ s0.appState ≠ "applied")
    (hs : provider N = Except.ok s) (happ : s.appState = "applied") :
    awaitDeviceStateSettle provider fuel = SettleResult.settled (N + 1) s ∧
    init bc comp bt provider fuel = buildSessions bc bt s comp := by
  have h := awaitSettleAux_applied provider N 0 fuel hfuel
    (fun j hj => by simpa using hpre j hj) s (by simpa using hs) happ
  have h0 : awaitDeviceStateSettle provider fuel = SettleResult.settled (N + 1) s := by
    simpa [awaitDeviceStateSettle] using h
  exact ⟨h0, by simp [init, h0]⟩

/-- Witness for C4: a provider that reports "applying" twice and then
"applied"; the loop settles after three calls on the third state. -/
theorem C4_settle_termination_witness :
    awaitDeviceStateSettle
        (fun i => if i < 2 then Except.ok ⟨"applying", []⟩
                  else Except.ok ⟨"applied", []⟩) 3 =
      SettleResult.settled 3 ⟨"applied", []⟩ ∧
    init "/ctx" ⟨[]⟩ []
        (fun i => if i < 2 then Except.ok ⟨"applying", []⟩
                  else Except.ok ⟨"applied", []⟩) 3 =
      buildSessions "/ctx" [] ⟨"applied", []⟩ ⟨[]⟩ :=
  C4_settle_termination
    (fun i => if i < 2 then Except.ok ⟨"applying", []⟩
              else Except.ok ⟨"applied", []⟩)
    2 3 ⟨"applied", []⟩ "/ctx" ⟨[]⟩ []
    (by decide)
    (fun j hj => ⟨⟨"applying", []⟩, by simp [hj], by decide⟩)
    (by simp)
    rfl

/-- C9: if a runtime-state fetch fails after `k` not-yet-settled
responses, the settle loop does not retry it — it fails right at that
call — and `init` aborts with that error before creating any session or
watcher (the returned container map is empty). -/
theorem C9_fetch_failure_aborts (provider : Nat → Except LiveErr Status)
    (k fuel : Nat) (e : LiveErr) (bc : String) (comp : Composition)
    (bt : List BuildTask)
    (hfuel : k < fuel)
    (hpre : ∀ j, j < k → ∃ s0, provider j = Except.ok s0 ∧ s0.appState ≠ "applied")
    (he : provider k = Except.error e) :
    awaitDeviceStateSettle provider fuel = SettleResult.failed (k + 1) e ∧
    init bc comp bt provider fuel = InitResult.failed [] e := by
  have h := awaitSettleAux_error provider k 0 fuel hfuel
    (fun j hj => by simpa using hpre j hj) e (by simpa using he)
  have h0 : awaitDeviceStateSettle provider fuel = SettleResult.failed (k + 1) e := by
    simpa [awaitDeviceStateSettle] using h
  exact ⟨h0, by simp [init, h0]⟩

/-- Witness for C9: a provider that reports "applying" once and then
rejects; initialization aborts with the fetch error and an empty session
map, even though a qualifying service was configured. -/
theorem C9_fetch_failure_aborts_witness :
    awaitDeviceStateSettle
        (fun i => if i < 1 then Except.ok ⟨"applying", []⟩
                  else Except.error (.ioError "ECONNRESET")) 2 =
      SettleResult.failed 2 (.ioError "ECONNRESET") ∧
    init "/r" ⟨[("web", ⟨some ⟨"web"⟩⟩)]⟩ [⟨"web", some "Dockerfile"⟩]
        (fun i => if i < 1 then Except.ok ⟨"applying", []⟩
                  else Except.error (.ioError "ECONNRESET")) 2 =
      InitResult.failed [] (.ioError "ECONNRESET") :=
  C9_fetch_failure_aborts
    (fun i => if i < 1 then Except.ok ⟨"applying", []⟩
              else Except.error (.ioError "ECONNRESET"))
    1 2 (.ioError "ECONNRESET") "/r" ⟨[("web", ⟨some ⟨"web"⟩⟩)]⟩
    [⟨"web", some "Dockerfile"⟩]
    (by decide)
    (fun j hj => ⟨⟨"applying", []⟩, by simp [hj], by decide⟩)
    (by simp)

/-- Helper: when every service in `pre` is processed without a throw and
the next service throws `e`, the `init` loop stops at that throw, leaving
in `this.containers` exactly the accumulator plus the sessions created for
`pre`. -/
theorem initLoop_prefix_fail (bc : String) (bt : List BuildTask) (st : Status)
    (fname : String) (fsvc : Service) (e : LiveErr) :
    ∀ (pre rest : List (String × Service)) (acc : List (String × MonitoredContainer)),
    (∀ p ∈ pre, ∃ v, initService bc bt st p.1 p.2 = Except.ok v) →
    initService bc bt st fname fsvc = Except.error e →
    initLoop bc bt st (pre ++ (fname, fsvc) :: rest) acc =
      (acc ++ okSessions bc bt st pre, some e) := by
  intro pre
  induction pre with
  | nil =>
    intro rest acc _ hf
    simp [initLoop, hf, okSessions]
  | cons p pre ih =>
    intro rest acc hpre hf
    obtain ⟨name, svc⟩ := p
    obtain ⟨v, hv⟩ := hpre (name, svc) (List.mem_cons_self _ _)
    have hpre' : ∀ q ∈ pre, ∃ v, initService bc bt st q.1 q.2 = Except.ok v :=
      fun q hq => hpre q (List.mem_cons_of_mem _ hq)
    cases v with
    | none =>
      rw [List.cons_append]
      simp only [initLoop, hv]
      rw [ih rest acc hpre' hf]
      simp [okSessions, hv]
    | some mc =>
      rw [List.cons_append]
      simp only [initLoop, hv]
      rw [ih rest (acc ++ [(name, mc)]) hpre' hf]
      simp [okSessions, hv]

/-- C2 counterexample: a two-service composition where the first service
("a") qualifies and the second ("b") has no build task. Session
construction does raise the configuration error, but it does not produce
zero sessions: the session already created for "a" is left behind in
`this.containers` when the exception propagates. -/
theorem C2_counterexample :
    buildSessions "/root" [⟨"a", some "Dockerfile.a"⟩]
        ⟨"applied", [⟨"a", "cont-a"⟩]⟩
        ⟨[("a", ⟨some ⟨"ctx-a"⟩⟩), ("b", ⟨some ⟨"ctx-b"⟩⟩)]⟩ =
      InitResult.failed
        [("a", ⟨pathJoin "/root" "ctx-a",
                ⟨"Dockerfile.a", pathJoin "/root" "ctx-a", "cont-a"⟩,
                watchRoutes "a"⟩)]
        (.noBuildTask "b") ∧
    InitResult.containers
        (buildSessions "/root" [⟨"a", some "Dockerfile.a"⟩]
          ⟨"applied", [⟨"a", "cont-a"⟩]⟩
          ⟨[("a", ⟨some ⟨"ctx-a"⟩⟩), ("b", ⟨some ⟨"ctx-b"⟩⟩)]⟩) ≠ [] := by
  constructor
  · rfl
  · intro h
    simp [buildSessions, initLoop, initService, okSessions, pathJoin,
      InitResult.containers] at h

/-- C2 amended: when a service fails a session-construction requirement,
the loop raises the configuration error at that service and constructs no
further session, but the sessions already created for qualifying services
processed earlier in the composition remain behind (the session set is not
rolled back); the set is empty only when no earlier service qualified. -/
theorem C2_fail_closed_amended (bc : String) (bt : List BuildTask) (st : Status)
    (pre rest : List (String × Service)) (fname : String) (fsvc : Service)
    (e : LiveErr)
    (hpre : ∀ p ∈ pre, ∃ v, initService bc bt st p.1 p.2 = Except.ok v)
    (hf : initService bc bt st fname fsvc = Except.error e) :
    buildSessions bc bt st ⟨pre ++ (fname, fsvc) :: rest⟩ =
      InitResult.failed (okSessions bc bt st pre) e := by
  have h := initLoop_prefix_fail bc bt st fname fsvc e pre rest [] hpre hf
  simp [buildSessions, h]

/-- Witness for the amended C2, at the same two-service composition as
the counterexample: the loop fails on "b" and retains exactly the session
built for "a". -/
theorem C2_fail_closed_amended_witness :
    buildSessions "/root" [⟨"a", some "Dockerfile.a"⟩]
        ⟨"applied", [⟨"a", "cont-a"⟩]⟩
        ⟨[("a", ⟨some ⟨"ctx-a"⟩⟩)] ++ ("b", ⟨some ⟨"ctx-b"⟩⟩) :: []⟩ =
      InitResult.failed
        (okSessions "/root" [⟨"a", some "Dockerfile.a"⟩]
          ⟨"applied", [⟨"a", "cont-a"⟩]⟩ [("a", ⟨some ⟨"ctx-a"⟩⟩)])
        (.noBuildTask "b") :=
  C2_fail_closed_amended "/root" [⟨"a", some "Dockerfile.a"⟩]
    ⟨"applied", [⟨"a", "cont-a"⟩]⟩
    [("a", ⟨some ⟨"ctx-a"⟩⟩)] [] "b" ⟨some ⟨"ctx-b"⟩⟩ (.noBuildTask "b")
    (fun p hp => by
      have : p = ("a", (⟨some ⟨"ctx-a"⟩⟩ : Service)) := by simpa using hp
      subst this
      exact ⟨some ⟨pathJoin "/root" "ctx-a",
        ⟨"Dockerfile.a", pathJoin "/root" "ctx-a", "cont-a"⟩,
        watchRoutes "a"⟩, rfl⟩)
    rfl

/-- Helper: the service names keyed in the map the `init` loop produces
form a sublist of the accumulator's names followed by the processed
services' names. -/
theorem initLoop_keys_sublist (bc : String) (bt : List BuildTask) (st : Status) :
    ∀ (svcs : List (String × Service)) (acc : List (String × MonitoredContainer)),
    ((initLoop bc bt st svcs acc).1.map Prod.fst).Sublist
      (acc.map Prod.fst ++ svcs.map Prod.fst) := by
  intro svcs
  induction svcs with
  | nil =>
    intro acc
    simp [initLoop]
  | cons p rest ih =>
    intro acc
    obtain ⟨name, svc⟩ := p
    cases h : initService bc bt st name svc with
    | error e =>
      simp only [initLoop, h]
      exact List.sublist_append_left _ _
    | ok v =>
      cases v with
      | none =>
        simp only [initLoop, h]
        refine (ih acc).trans ?_
        refine List.Sublist.append_left ?_ _
        simp
      | some mc =>
        simp only [initLoop, h]
        have := ih (acc ++ [(name, mc)])
        simpa [List.append_assoc] using this

/-- Helper: the containers of a `buildSessions` result are the first
component of the underlying loop. -/
theorem buildSessions_containers (bc : String) (bt : List BuildTask) (st : Status)
    (comp : Composition) :
    (buildSessions bc bt st comp).containers =
      (initLoop bc bt st comp.services []).1 := by
  unfold buildSessions
  rcases h : initLoop bc bt st comp.services [] with ⟨cs, e⟩
  cases e <;> simp [InitResult.containers]

/-- C7: for a qualifying service — build declared, first matching build
task carrying a dockerfile, first matching container in the settled state
— the loop iteration resolves `context = join(contextRoot, build.context)`,
binds the livepush handle to exactly that (dockerfile, context,
containerId) triple, registers the three forwarding watcher routes, and
stores the session under the service name; and for a composition with
distinct service names the resulting session map keys at most one session
per name. -/
theorem C7_session_binding (bc : String) (bt : List BuildTask) (st : Status)
    (name : String) (svc : Service) (b : ServiceBuild) (task : BuildTask)
    (d : String) (cont : ContainerDesc) (comp : Composition)
    (hb : svc.build = some b)
    (hfind : List.find? (fun t => t.serviceName == name) bt = some task)
    (hdf : task.dockerfile = some d)
    (hcont : List.find? (fun c => c.serviceName == name) st.containers = some cont)
    (hnd : (comp.services.map Prod.fst).Nodup) :
    initService bc bt st name svc =
      Except.ok (some ⟨pathJoin bc b.context,
        ⟨d, pathJoin bc b.context, cont.containerId⟩, watchRoutes name⟩) ∧
    ((buildSessions bc bt st comp).containers.map Prod.fst).Nodup := by
  constructor
  · simp [initService, hfind, hb, hdf, hcont]
  · rw [buildSessions_containers]
    refine List.Nodup.sublist ?_ hnd
    simpa using initLoop_keys_sublist bc bt st comp.services []

/-- Witness for C7: one qualifying service "web" with context "web",
dockerfile "Dockerfile" and container "c-web". -/
theorem C7_session_binding_witness :
    initService "/r" [⟨"web", some "Dockerfile"⟩] ⟨"applied", [⟨"web", "c-web"⟩]⟩
        "web" ⟨some ⟨"web"⟩⟩ =
      Except.ok (some ⟨pathJoin "/r" "web",
        ⟨"Dockerfile", pathJoin "/r" "web", "c-web"⟩, watchRoutes "web"⟩) ∧
    ((buildSessions "/r" [⟨"web", some "Dockerfile"⟩]
        ⟨"applied", [⟨"web", "c-web"⟩]⟩
        ⟨[("web", ⟨some ⟨"web"⟩⟩)]⟩).containers.map Prod.fst).Nodup :=
  C7_session_binding "/r" [⟨"web", some "Dockerfile"⟩]
    ⟨"applied", [⟨"web", "c-web"⟩]⟩ "web" ⟨some ⟨"web"⟩⟩ ⟨"web"⟩
    ⟨"web", some "Dockerfile"⟩ "Dockerfile" ⟨"web", "c-web"⟩
    ⟨[("web", ⟨some ⟨"web"⟩⟩)]⟩
    rfl rfl rfl rfl (by simp)

/-- C1 counterexample: two batches for the same session in rapid
succession, the first execution still running when the second handler
fires. The event loop reaches the final trace `overlapTrace` — both
handlers classify, diff and start their execution before the first
execution completes — in which the second execution's start (index 3)
precedes the first execution's completion (index 4). The claimed
serialization ("the second execution starts only after the first
completes") therefore fails: `handleFSEvent` starts `performActions` in
the same synchronous block as the diff, with no per-session lock. -/
theorem C1_serialized_execution_counterexample :
    LoopReach ⟨[1, 2], [], []⟩ ⟨[], [], overlapTrace⟩ ∧
    overlapTrace.indexOf (EvStep.execStart 2) <
      overlapTrace.indexOf (EvStep.execEnd 1) := by
  constructor
  · show Relation.ReflTransGen LoopStep _ _
    have s1 : LoopStep ⟨[1, 2], [], []⟩
        ⟨[2], [1], [.classifyDiff 1, .execStart 1]⟩ :=
      LoopStep.runHandler 1 [2] [] []
    have s2 : LoopStep ⟨[2], [1], [.classifyDiff 1, .execStart 1]⟩
        ⟨[], [1, 2],
          [.classifyDiff 1, .execStart 1, .classifyDiff 2, .execStart 2]⟩ :=
      LoopStep.runHandler 2 [] [1] [.classifyDiff 1, .execStart 1]
    have s3 : LoopStep
        ⟨[], [1, 2],
          [.classifyDiff 1, .execStart 1, .classifyDiff 2, .execStart 2]⟩
        ⟨[], [2],
          [.classifyDiff 1, .execStart 1, .classifyDiff 2, .execStart 2,
            .execEnd 1]⟩ :=
      LoopStep.completeExec 1 [] [1, 2]
        [.classifyDiff 1, .execStart 1, .classifyDiff 2, .execStart 2]
        (by decide)
    have s4 : LoopStep
        ⟨[], [2],
          [.classifyDiff 1, .execStart 1, .classifyDiff 2, .execStart 2,
            .execEnd 1]⟩
        ⟨[], [], overlapTrace⟩ :=
      LoopStep.completeExec 2 [] [2]
        [.classifyDiff 1, .execStart 1, .classifyDiff 2, .execStart 2,
          .execEnd 1]
        (by decide)
    exact Relation.ReflTransGen.head s1 (Relation.ReflTransGen.head s2
      (Relation.ReflTransGen.head s3 (Relation.ReflTransGen.head s4
        Relation.ReflTransGen.refl)))
  · decide

/-- C1 amended: executions for one session are not mutually excluded. For
any two handler invocations queued in arrival order, the event loop can
reach the completed run in which the second invocation's execution starts
(position 3 of the trace) strictly before the first invocation's
execution completes (position 4): classification and diff of the second
batch proceed while the first execution is in flight, and its execution
begins immediately, with no lock gating it. Batches for different
sessions are likewise unserialized (sessions share no state on this
path). -/
theorem C1_overlapping_executions_amended (a b : Nat) :
    LoopReach ⟨[a, b], [], []⟩
      ⟨[], [], [.classifyDiff a, .execStart a, .classifyDiff b, .execStart b,
                .execEnd a, .execEnd b]⟩ ∧
    (3 : Nat) < 4 ∧
    [EvStep.classifyDiff a, .execStart a, .classifyDiff b, .execStart b,
      .execEnd a, .execEnd b].get? 3 = some (.execStart b) ∧
    [EvStep.classifyDiff a, .execStart a, .classifyDiff b, .execStart b,
      .execEnd a, .execEnd b].get? 4 = some (.execEnd a) := by
  refine ⟨?_, by omega, rfl, rfl⟩
  show Relation.ReflTransGen LoopStep _ _
  have s1 : LoopStep ⟨[a, b], [], []⟩
      ⟨[b], [a], [.classifyDiff a, .execStart a]⟩ :=
    LoopStep.runHandler a [b] [] []
  have s2 : LoopStep ⟨[b], [a], [.classifyDiff a, .execStart a]⟩
      ⟨[], [a, b],
        [.classifyDiff a, .execStart a, .classifyDiff b, .execStart b]⟩ :=
    LoopStep.runHandler b [] [a] [.classifyDiff a, .execStart a]
  have s3 := LoopStep.completeExec a [] [a, b]
    [.classifyDiff a, .execStart a, .classifyDiff b, .execStart b]
    (List.mem_cons_self a [b])
  rw [List.erase_cons_head] at s3
  have s4 := LoopStep.completeExec b [] [b]
    [.classifyDiff a, .execStart a, .classifyDiff b, .execStart b, .execEnd a]
    (List.mem_singleton.mpr rfl)
  rw [List.erase_cons_head] at s4
  exact Relation.ReflTransGen.head s1 (Relation.ReflTransGen.head s2
    (Relation.ReflTransGen.head s3 (Relation.ReflTransGen.head s4
      Relation.ReflTransGen.refl)))

end LivepushManager
